import Mathlib

/-!
Verification of the stelloauth OAuth helper service.

This file gives a shallow embedding of the pure decision logic of the two
implementation variants found in the repository:

* the browser-driven variant (`main.go`): the network-event listener that
  captures the OAuth code, and the tail decision logic of
  `performChromedpOAuth`;
* the manual HTTP variant (`part_000`): the regex-based HTML scrapers
  (`extractFormAction`, `extractHiddenFields`, `extractRedirectURL`),
  `extractCode`, the bounded `followRedirects` loop, and the post-login
  branch structure of `performOAuth`;
* the shared pieces: the authorize-URL builder and the `/oauth` handler's
  validation and error surfacing.

Go standard-library string and URL primitives are modelled explicitly
(`strings.HasPrefix`, `strings.Contains`, `url.QueryEscape`,
`url.Values.Get` over a parsed query, the `RawQuery` extraction of
`url.Parse`).  Regular expressions are modelled by dedicated scanners that
reproduce Go's leftmost-first, greedy-with-backtracking match semantics for
the concrete patterns appearing in the source.
-/

namespace Stelloauth

/-! ### Go string primitives -/

/-- Model of Go `strings.HasPrefix(s, pre)`. -/
def goStartsWith (s pre : String) : Bool :=
  pre.data.isPrefixOf s.data

/-- Substring test on character lists: does `sub` occur contiguously in `s`
(i.e. as a prefix of some suffix)?  Model of the search underlying
Go `strings.Contains`. -/
def listContains : List Char → List Char → Bool
  | [], sub => sub.isEmpty
  | c :: t, sub => sub.isPrefixOf (c :: t) || listContains t sub

/-- Model of Go `strings.Contains(s, sub)`. -/
def goContains (s sub : String) : Bool :=
  listContains s.data sub.data

/-- ASCII fragment of Go `strings.ToLower` (country codes in the configs are
ASCII, which is the input class the builder is applied to). -/
def asciiToLower (s : String) : String :=
  ⟨s.data.map fun c => if 'A' ≤ c ∧ c ≤ 'Z' then Char.ofNat (c.toNat + 32) else c⟩

/-- Substring occurrence as a proposition: `sub` occurs contiguously in `s`. -/
def SubstrOf (sub s : String) : Prop :=
  ∃ p q : List Char, s.data = p ++ sub.data ++ q

/-! ### Go `net/url` model -/

/-- UTF-8 byte sequence of a Unicode code point. -/
def utf8Bytes (n : Nat) : List Nat :=
  if n < 128 then [n]
  else if n < 2048 then [192 + n / 64, 128 + n % 64]
  else if n < 65536 then [224 + n / 4096, 128 + (n / 64) % 64, 128 + n % 64]
  else [240 + n / 262144, 128 + (n / 4096) % 64, 128 + (n / 64) % 64, 128 + n % 64]

/-- UTF-8 bytes of a string (Go strings are byte sequences). -/
def strBytes (s : String) : List Nat :=
  (s.data.map fun c => utf8Bytes c.toNat).flatten

/-- Bytes left unescaped by Go `url.QueryEscape`: ASCII alphanumerics and
the unreserved marks `-`, `_`, `.`, `~`. -/
def isUnreservedByte (b : Nat) : Bool :=
  (65 ≤ b ∧ b ≤ 90) ∨ (97 ≤ b ∧ b ≤ 122) ∨ (48 ≤ b ∧ b ≤ 57) ∨
    b = 45 ∨ b = 95 ∨ b = 46 ∨ b = 126

/-- Uppercase hex digit for a value below 16. -/
def hexDigitUpper (n : Nat) : Char :=
  if n < 10 then Char.ofNat (48 + n) else Char.ofNat (55 + n)

/-- Escape a single byte the way Go `url.QueryEscape` does: unreserved bytes
pass through, space becomes `+`, everything else becomes `%XX`. -/
def escapeQueryByte (b : Nat) : List Char :=
  if isUnreservedByte b then [Char.ofNat b]
  else if b = 32 then ['+']
  else ['%', hexDigitUpper (b / 16), hexDigitUpper (b % 16)]

/-- Model of Go `url.QueryEscape`. -/
def goQueryEscape (s : String) : String :=
  ⟨((strBytes s).map escapeQueryByte).flatten⟩

/-- Numeric value of a hexadecimal digit, if any. -/
def hexVal (c : Char) : Option Nat :=
  if '0' ≤ c ∧ c ≤ '9' then some (c.toNat - 48)
  else if 'a' ≤ c ∧ c ≤ 'f' then some (c.toNat - 87)
  else if 'A' ≤ c ∧ c ≤ 'F' then some (c.toNat - 55)
  else none

/-- ASCII model of Go `url.QueryUnescape`: `+` becomes a space, `%XX` decodes
a byte, a malformed `%` escape is an error (`none`). -/
def unescapeChars : List Char → Option (List Char)
  | [] => some []
  | '%' :: a :: b :: t =>
    match hexVal a, hexVal b with
    | some ha, some hb => (unescapeChars t).map (Char.ofNat (16 * ha + hb) :: ·)
    | _, _ => none
  | '%' :: _ => none
  | '+' :: t => (unescapeChars t).map (' ' :: ·)
  | c :: t => (unescapeChars t).map (c :: ·)

/-- Remainder of `l` after the first occurrence of `c`, if `c` occurs. -/
def afterFirst (c : Char) : List Char → Option (List Char)
  | [] => none
  | x :: t => if x = c then some t else afterFirst c t

/-- Split a character list at the first occurrence of `c`
(model of Go `strings.Cut`). -/
def cutAt (c : Char) : List Char → List Char × List Char
  | [] => ([], [])
  | x :: t =>
    if x = c then ([], t)
    else
      let r := cutAt c t
      (x :: r.1, r.2)

/-- Split on `&`, accumulating the current segment.  Together with the
empty-segment dropping in `parsePair` this reproduces the segment stream of
the `strings.Cut` loop in Go `url.ParseQuery` (which never yields the empty
segments that this splitter can produce at the ends). -/
def splitAmpAux (cur : List Char) : List Char → List (List Char)
  | [] => [cur]
  | c :: t => if c = '&' then cur :: splitAmpAux [] t else splitAmpAux (cur ++ [c]) t

/-- Split a query string on `&` the way Go `url.ParseQuery` consumes it. -/
def splitAmp (l : List Char) : List (List Char) :=
  splitAmpAux [] l

/-- One key-value pair of Go `url.ParseQuery`: drop segments containing `;`,
drop empty segments, cut at the first `=`, unescape both sides, and drop the
pair when unescaping fails (errors from individual pairs are swallowed by
`URL.Query`). -/
def parsePair (seg : List Char) : Option (String × String) :=
  if listContains seg [';'] then none
  else if seg.isEmpty then none
  else
    let kv := cutAt '=' seg
    match unescapeChars kv.1, unescapeChars kv.2 with
    | some k, some v => some (⟨k⟩, ⟨v⟩)
    | _, _ => none

/-- Ordered key-value pairs of a raw query string, as produced by
Go `url.ParseQuery` (keeping first-occurrence order, which is all
`Values.Get` observes). -/
def parseQueryPairs (q : String) : List (String × String) :=
  (splitAmp q.data).filterMap parsePair

/-- Model of Go `url.Values.Get`: first value for the key, or empty. -/
def valuesGet (pairs : List (String × String)) (key : String) : String :=
  match pairs.find? (fun p => p.1 = key) with
  | some p => p.2
  | none => ""

/-- Model of the success condition of Go `url.Parse` on the URL class handled
here: `url.Parse` rejects URLs containing ASCII control bytes. -/
def urlParseOk (u : String) : Bool :=
  u.data.all fun c => decide (32 ≤ c.toNat ∧ c.toNat ≠ 127)

/-- The `RawQuery` component of a parsed URL: Go `url.Parse` first cuts the
fragment at the first `#`, then takes what follows the first `?`. -/
def rawQueryOf (u : String) : String :=
  match afterFirst '?' (u.data.takeWhile (· ≠ '#')) with
  | some q => ⟨q⟩
  | none => ""

/-- Model of `parsed.Query().Get("code")` for a URL string. -/
def queryGetCode (u : String) : String :=
  valuesGet (parseQueryPairs (rawQueryOf u)) "code"

/-! ### Configuration data model and the authorize-URL builder -/

/-- Per-country configuration (`CountryConfig` in both variants). -/
structure CountryConfig where
  locale : String
  clientID : String
  clientSecret : String
  deriving DecidableEq

/-- Per-brand configuration (`BrandConfig` in both variants). -/
structure BrandConfig where
  oauthURL : String
  realm : String
  scheme : String
  configs : List (String × CountryConfig)
  deriving DecidableEq

/-- The `redirectURI` local of `performOAuth`
(`main.go` line 178, `part_000` line 167):
`<scheme>://oauth2redirect/<lowercase country>`. -/
def redirectURIFor (scheme country : String) : String :=
  scheme ++ "://oauth2redirect/" ++ asciiToLower country

/-- The authorize URL assembled by `performOAuth`
(`main.go` lines 179-184, `part_000` lines 168-173); the `%%20` in the Go
format string are literal `%20`. -/
def buildAuthorizeURL (bc : BrandConfig) (cc : CountryConfig) (country : String) : String :=
  bc.oauthURL ++ "/am/oauth2/authorize?client_id=" ++ cc.clientID ++
    "&response_type=code&redirect_uri=" ++ goQueryEscape (redirectURIFor bc.scheme country) ++
    "&scope=openid%20profile%20email&locale=" ++ cc.locale

/-- The authorize URL as the spec words it (section 4.1): the base URL
followed by `/am/oauth2/authorize` with `client_id`, `response_type=code`,
the URL-encoded redirect URI, the scope `openid profile email` URL-encoded
as `openid%20profile%20email`, and the locale. -/
def specAuthorizeURL (oauthBaseURL clientId locale scheme country : String) : String :=
  oauthBaseURL ++ "/am/oauth2/authorize?client_id=" ++ clientId ++
    "&response_type=code&redirect_uri=" ++ goQueryEscape (scheme ++ "://oauth2redirect/" ++ asciiToLower country) ++
    "&scope=openid%20profile%20email&locale=" ++ locale

/-! ### Scanners for the regular expressions of the manual variant

Go's `regexp` package implements leftmost-first (Perl-style) matching:
the match starting earliest wins, and at that start position alternatives
are tried in order and quantifiers greedily, with backtracking.  The
scanners below reproduce that for the concrete patterns of `part_000`.
A `[^>]*` segment is modelled by trying the longest `>`-free skip first and
backtracking downwards (`descTry`). -/

/-- Is the character one of the quote characters of a `["']` class? -/
def isQuote (c : Char) : Bool :=
  c = '"' ∨ c = '\''

/-- Remainder of `s` after a literal prefix `lit`, if `lit` is a prefix. -/
def dropLit (lit : List Char) (s : List Char) : Option (List Char) :=
  if lit.isPrefixOf s then some (s.drop lit.length) else none

/-- Backtracking helper: try `f k`, `f (k-1)`, ..., `f 0` in that order and
return the first success (greedy semantics for a skip of at most `k`). -/
def descTry (f : Nat → Option α) : Nat → Option α
  | 0 => f 0
  | k + 1 =>
    match f (k + 1) with
    | some x => some x
    | none => descTry f k

/-- Length of the longest `>`-free prefix: the skips a `[^>]*` segment can
make. -/
def maxNonGtLen (s : List Char) : Nat :=
  (s.takeWhile (fun c => !(c = '>'))).length

/-- Length of the longest quote-free prefix: the skips a `[^"']*` segment
can make. -/
def maxNonQuoteLen (s : List Char) : Nat :=
  (s.takeWhile (fun c => !(isQuote c))).length

/-- Match `([^"']+)["']`: a nonempty capture of quote-free characters
followed by a closing quote.  Returns the capture and the remainder after
the closing quote. -/
def capPlusQuote (s : List Char) : Option (String × List Char) :=
  let cap := s.takeWhile (fun c => !(isQuote c))
  if cap.isEmpty then none
  else
    match s.drop cap.length with
    | q :: r => if isQuote q then some (⟨cap⟩, r) else none
    | [] => none

/-- Match `([^"']*)["']`: a possibly empty capture of quote-free characters
followed by a closing quote. -/
def capStarQuote (s : List Char) : Option (String × List Char) :=
  let cap := s.takeWhile (fun c => !(isQuote c))
  match s.drop cap.length with
  | q :: r => if isQuote q then some (⟨cap⟩, r) else none
  | [] => none

/-- Match `["']lit["']`: a quoted literal, with the two quote characters
chosen independently as in the `["']` classes of the patterns. -/
def quotedLit (lit : List Char) (s : List Char) : Option (List Char) :=
  match s with
  | q :: r =>
    if isQuote q then
      match dropLit lit r with
      | some (q2 :: r2) => if isQuote q2 then some r2 else none
      | _ => none
    else none
  | [] => none

/-! #### `extractRedirectURL` (`part_000` lines 296-311) -/

/-- Whitespace class of Go `regexp` (`\s`). -/
def isGoSpace (c : Char) : Bool :=
  c = ' ' ∨ c = '\t' ∨ c = '\n' ∨ c = '\x0c' ∨ c = '\r'

/-- Tail of the script-redirect pattern after the
`window.location`/`location.href` alternative:
`\s*=\s*["']([^"']+)["']`. -/
def jsTail (r : List Char) : Option String :=
  match r.dropWhile isGoSpace with
  | '=' :: r2 =>
    match r2.dropWhile isGoSpace with
    | q :: r4 => if isQuote q then (capPlusQuote r4).map (·.1) else none
    | [] => none
  | _ => none

/-- One attempt of the script-redirect pattern at a fixed position. -/
def jsAt (s : List Char) : Option String :=
  match dropLit "window.location".data s with
  | some r => jsTail r
  | none =>
    match dropLit "location.href".data s with
    | some r => jsTail r
    | none => none

/-- Leftmost match of
`(?:window\.location|location\.href)\s*=\s*["']([^"']+)["']`. -/
def jsScan : List Char → Option String
  | [] => none
  | c :: t =>
    match jsAt (c :: t) with
    | some u => some u
    | none => jsScan t

/-- One attempt, after a `<meta` literal, of the rest of the meta-refresh
pattern `[^>]*http-equiv=["']refresh["'][^>]*content=["'][^"']*url=([^"']+)["']`. -/
def metaAt (s : List Char) : Option String :=
  descTry (fun k1 =>
    match dropLit "http-equiv=".data (s.drop k1) with
    | none => none
    | some r1 =>
      match quotedLit "refresh".data r1 with
      | none => none
      | some r2 =>
        descTry (fun k2 =>
          match dropLit "content=".data (r2.drop k2) with
          | none => none
          | some (q :: r4) =>
            if isQuote q then
              descTry (fun k3 =>
                match dropLit "url=".data (r4.drop k3) with
                | none => none
                | some r5 => (capPlusQuote r5).map (·.1))
                (maxNonQuoteLen r4)
            else none
          | some [] => none)
          (maxNonGtLen r2))
    (maxNonGtLen s)

/-- Leftmost match of the meta-refresh pattern. -/
def metaScan : List Char → Option String
  | [] => none
  | c :: t =>
    match (match dropLit "<meta".data (c :: t) with
           | some r => metaAt r
           | none => none) with
    | some u => some u
    | none => metaScan t

/-- Model of `extractRedirectURL` (`part_000` lines 296-311): first the
script-redirect pattern, then the meta-refresh pattern, else empty. -/
def extractRedirectURL (html : String) : String :=
  match jsScan html.data with
  | some u => u
  | none =>
    match metaScan html.data with
    | some u => u
    | none => ""

/-! #### `extractFormAction` (`part_000` lines 246-258) -/

/-- After `<form`, the rest of the pattern `[^>]*action=["']([^"']+)["']`. -/
def formAfter (s : List Char) : Option String :=
  descTry (fun k =>
    match dropLit "action=".data (s.drop k) with
    | none => none
    | some (q :: r) => if isQuote q then (capPlusQuote r).map (·.1) else none
    | some [] => none)
    (maxNonGtLen s)

/-- Leftmost match of `<form[^>]*action=["']([^"']+)["']`. -/
def findFormAction : List Char → Option String
  | [] => none
  | c :: t =>
    match (match dropLit "<form".data (c :: t) with
           | some r => formAfter r
           | none => none) with
    | some u => some u
    | none => findFormAction t

/-- Model of `extractFormAction` (`part_000` lines 246-258): the first
form-action capture, with a leading-`/` action resolved against the base
URL, and empty when there is no match. -/
def extractFormAction (html baseURL : String) : String :=
  match findFormAction html.data with
  | some action => if goStartsWith action "/" then baseURL ++ action else action
  | none => ""

/-! #### `extractHiddenFields` (`part_000` lines 260-280) -/

/-- After `<input`, the rest of the first hidden-field pattern
`[^>]*type=["']hidden["'][^>]*name=["']([^"']+)["'][^>]*value=["']([^"']*)["']`.
Returns name, value, and the remainder after the match. -/
def input1After (s : List Char) : Option (String × String × List Char) :=
  descTry (fun k1 =>
    match dropLit "type=".data (s.drop k1) with
    | none => none
    | some r1 =>
      match quotedLit "hidden".data r1 with
      | none => none
      | some r2 =>
        descTry (fun k2 =>
          match dropLit "name=".data (r2.drop k2) with
          | none => none
          | some (q :: r4) =>
            if isQuote q then
              match capPlusQuote r4 with
              | none => none
              | some (nm, r5) =>
                descTry (fun k3 =>
                  match dropLit "value=".data (r5.drop k3) with
                  | none => none
                  | some (q2 :: r7) =>
                    if isQuote q2 then
                      match capStarQuote r7 with
                      | none => none
                      | some (v, r8) => some (nm, v, r8)
                    else none
                  | some [] => none)
                  (maxNonGtLen r5)
            else none
          | some [] => none)
          (maxNonGtLen r2))
    (maxNonGtLen s)

/-- After `<input`, the rest of the second hidden-field pattern
`[^>]*value=["']([^"']*)["'][^>]*type=["']hidden["'][^>]*name=["']([^"']+)["']`.
Returns name, value, and the remainder after the match. -/
def input2After (s : List Char) : Option (String × String × List Char) :=
  descTry (fun k1 =>
    match dropLit "value=".data (s.drop k1) with
    | none => none
    | some (q :: r1) =>
      if isQuote q then
        match capStarQuote r1 with
        | none => none
        | some (v, r2) =>
          descTry (fun k2 =>
            match dropLit "type=".data (r2.drop k2) with
            | none => none
            | some r3 =>
              match quotedLit "hidden".data r3 with
              | none => none
              | some r4 =>
                descTry (fun k3 =>
                  match dropLit "name=".data (r4.drop k3) with
                  | none => none
                  | some (q2 :: r6) =>
                    if isQuote q2 then
                      match capPlusQuote r6 with
                      | none => none
                      | some (nm, r7) => some (nm, v, r7)
                    else none
                  | some [] => none)
                  (maxNonGtLen r4)) (maxNonGtLen r2)
      else none
    | some [] => none)
    (maxNonGtLen s)

/-- Leftmost match of a hidden-field pattern: scan for `<input` and apply
the given tail matcher. -/
def scanInput (after : List Char → Option (String × String × List Char)) :
    List Char → Option (String × String × List Char)
  | [] => none
  | c :: t =>
    match (match dropLit "<input".data (c :: t) with
           | some r => after r
           | none => none) with
    | some m => some m
    | none => scanInput after t

/-- All successive non-overlapping matches, continuing after each match end
(model of `FindAllStringSubmatch(html, -1)`).  The fuel is the length of the
scanned text plus one; every match consumes at least one character, so the
fuel never runs out on the inputs considered. -/
def findAllInput (after : List Char → Option (String × String × List Char)) :
    Nat → List Char → List (String × String)
  | 0, _ => []
  | fuel + 1, s =>
    match scanInput after s with
    | none => []
    | some (nm, v, rest) => (nm, v) :: findAllInput after fuel rest

/-- Insert-with-overwrite into an association list, modelling assignment to
a Go map key. -/
def mapSet (m : List (String × String)) (k v : String) : List (String × String) :=
  if m.any (fun p => p.1 = k) then m.map (fun p => if p.1 = k then (k, v) else p)
  else m ++ [(k, v)]

/-- Model of `extractHiddenFields` (`part_000` lines 260-280): all matches
of the name-before-value pattern, then all matches of the value-before-name
pattern, written into the same map. -/
def extractHiddenFields (html : String) : List (String × String) :=
  let l := html.data
  let pass1 := findAllInput input1After (l.length + 1) l
  let pass2 := findAllInput input2After (l.length + 1) l
  pass2.foldl (fun m p => mapSet m p.1 p.2)
    (pass1.foldl (fun m p => mapSet m p.1 p.2) [])

/-! ### `extractCode` and `followRedirects` (`part_000` lines 282-294, 313-344) -/

/-- Model of `extractCode` (`part_000` lines 282-294).  The error text of a
parse failure carries Go's own error description after the colon; the model
keeps the fixed prefix of that message. -/
def extractCode (urlStr : String) : Except String String :=
  if urlParseOk urlStr then
    if queryGetCode urlStr = "" then Except.error "no code found in redirect URL"
    else Except.ok (queryGetCode urlStr)
  else Except.error "failed to parse redirect URL"

/-- An HTTP response as `followRedirects` observes it: the `Location` header
and the body. -/
structure HResp where
  location : String
  body : String
  deriving DecidableEq

/-- The redirect target taken from a response (`part_000` lines 326-330):
the `Location` header if present, otherwise a script/meta-refresh redirect
scraped from the body. -/
def effectiveLocation (r : HResp) : String :=
  if r.location ≠ "" then r.location else extractRedirectURL r.body

/-- The loop body of `followRedirects` (`part_000` lines 315-341); the fuel
counts the remaining iterations of `for i := 0; i < 10; i++`, and both the
loop `break` and loop exhaustion produce the same terminal failure
(line 343). -/
def followRedirectsLoop (net : String → Except String HResp) (scheme : String) :
    Nat → String → Except String String
  | 0, _ => Except.error "failed to complete redirect chain"
  | fuel + 1, currentURL =>
    if goStartsWith currentURL (scheme ++ "://") then extractCode currentURL
    else
      match net currentURL with
      | Except.error e => Except.error ("failed to follow redirect: " ++ e)
      | Except.ok resp =>
        if effectiveLocation resp = "" then Except.error "failed to complete redirect chain"
        else if goStartsWith (effectiveLocation resp) (scheme ++ "://") then
          extractCode (effectiveLocation resp)
        else followRedirectsLoop net scheme fuel (effectiveLocation resp)

/-- Model of `followRedirects` (`part_000` lines 313-344) over an abstract
network `net` standing for `client.Get`. -/
def followRedirects (net : String → Except String HResp) (startURL scheme : String) :
    Except String String :=
  followRedirectsLoop net scheme 10 startURL

/-! ### The post-login branch structure of the manual `performOAuth`
(`part_000` lines 218-243) -/

/-- A login-POST response as `performOAuth` observes it. -/
structure LoginResp where
  statusCode : Nat
  location : String
  body : String
  deriving DecidableEq

/-- What `performOAuth` does after the login POST. -/
inductive PostLoginAction where
  /-- return `extractCode(location)` (line 221) -/
  | extract (u : String)
  /-- call `followRedirects` on the given URL (lines 229, 240) -/
  | follow (u : String)
  /-- fail with "authentication failed - please check your credentials" (line 234) -/
  | credentialError
  /-- fail with "authentication failed - could not complete OAuth flow" (line 243) -/
  | flowFailure
  deriving DecidableEq

/-- Model of the branch structure of `performOAuth` after the login POST
(`part_000` lines 218-243), in source order: custom-scheme `Location`
header, then 3xx redirect, then the "error"/"invalid" body check, then a
script/meta-refresh redirect scraped from the body, then terminal failure. -/
def postLoginStep (scheme : String) (r : LoginResp) : PostLoginAction :=
  if r.location ≠ "" ∧ goStartsWith r.location (scheme ++ "://") = true then
    PostLoginAction.extract r.location
  else if 300 ≤ r.statusCode ∧ r.statusCode < 400 then
    PostLoginAction.follow r.location
  else if goContains r.body "error" = true ∨ goContains r.body "invalid" = true then
    PostLoginAction.credentialError
  else if extractRedirectURL r.body ≠ "" then
    PostLoginAction.follow (extractRedirectURL r.body)
  else PostLoginAction.flowFailure

/-! ### The network-event listener of the browser variant
(`main.go` lines 229-248) -/

/-- A network event observed by the `chromedp.ListenTarget` listener. -/
inductive NetEvent where
  /-- a `network.EventRequestWillBeSent` with the given request URL -/
  | requestWillBeSent (url : String)
  /-- a `network.EventLoadingFailed` with the given error text -/
  | loadingFailed (errorText : String)
  deriving DecidableEq

/-- One step of the listener (`main.go` lines 230-247): on a request whose
URL starts with the custom-scheme prefix, parse it and overwrite `oauthCode`
with a non-empty `code` query parameter; all other events leave the captured
value unchanged. -/
def listenStep (redirectPrefix acc : String) : NetEvent → String
  | NetEvent.requestWillBeSent u =>
    if goStartsWith u redirectPrefix then
      if urlParseOk u then
        if queryGetCode u ≠ "" then queryGetCode u else acc
      else acc
    else acc
  | NetEvent.loadingFailed _ => acc

/-- The `oauthCode` variable after the listener has processed a sequence of
events, starting from its zero value. -/
def capturedCode (scheme : String) (events : List NetEvent) : String :=
  events.foldl (fun acc e => listenStep (scheme ++ "://") acc e) ""

/-- The code a single event would capture, if any: the conditions of
`listenStep` as an optional value. -/
def eventCapture (redirectPrefix : String) : NetEvent → Option String
  | NetEvent.requestWillBeSent u =>
    if goStartsWith u redirectPrefix then
      if urlParseOk u then
        if queryGetCode u ≠ "" then some (queryGetCode u) else none
      else none
    else none
  | NetEvent.loadingFailed _ => none

/-! ### The browser-driven flow tail (`main.go` lines 262-385) -/

/-- The outcomes of the browser steps of `performChromedpOAuth`, as the
function's control flow observes them.  The email, password and authorize
interactions only drive the browser; their effect is reflected in the
captured-code and URL fields. -/
structure ChromeEnv where
  /-- error of the navigate run (line 262), if it failed -/
  navigateErr : Option String
  /-- error of the wait-for-login-form run (line 275), if it failed -/
  waitLoginErr : Option String
  /-- page HTML read in the wait-failure branch (line 281) -/
  pageHTML : String
  /-- error of the credential-fill run (line 293), if it failed -/
  fillErr : Option String
  /-- error of the submit run (line 307), if it failed -/
  submitErr : Option String
  /-- listener-captured code at the first check (line 316) -/
  codeAfterSubmit : String
  /-- DOM error text from the error probe (line 326) -/
  errorText : String
  /-- listener-captured code at the second check (line 362) -/
  codeAfterSettle : String
  /-- browser location at the final check (line 368) -/
  currentURL : String
  deriving DecidableEq

/-- Model of `performChromedpOAuth` (`main.go` lines 197-385) over the
browser outcomes.  `authError` starts empty, is assigned only inside the
wait-failure branch (line 284), which returns immediately (line 286), and is
tested in the terminal branch (line 380). -/
def performChromedpOAuth (scheme : String) (env : ChromeEnv) : Except String String :=
  let authError := ""
  let redirectPrefix := scheme ++ "://"
  match env.navigateErr with
  | some v => Except.error ("failed to navigate: " ++ v)
  | none =>
  match env.waitLoginErr with
  | some v =>
    let authError := if goContains env.pageHTML "error" || goContains env.pageHTML "Error"
      then "login page error" else authError
    let _ := authError
    Except.error ("login form not found (timeout): " ++ v)
  | none =>
  match env.fillErr with
  | some v => Except.error ("failed to fill credentials: " ++ v)
  | none =>
  match env.submitErr with
  | some v => Except.error ("failed to submit login: " ++ v)
  | none =>
  if env.codeAfterSubmit ≠ "" then Except.ok env.codeAfterSubmit
  else if env.errorText ≠ "" then Except.error ("authentication failed: " ++ env.errorText)
  else if env.codeAfterSettle ≠ "" then Except.ok env.codeAfterSettle
  else
    match (if goStartsWith env.currentURL redirectPrefix then
             if urlParseOk env.currentURL then
               if queryGetCode env.currentURL ≠ "" then some (queryGetCode env.currentURL)
               else none
             else none
           else none) with
    | some c => Except.ok c
    | none =>
      if authError ≠ "" then Except.error ("authentication failed: " ++ authError)
      else Except.error "authentication failed - could not retrieve OAuth code"

/-- The same flow with the `authError` terminal branch (lines 380-382)
removed: the no-code outcome goes straight to the generic failure. -/
def performChromedpOAuthSimplified (scheme : String) (env : ChromeEnv) : Except String String :=
  let redirectPrefix := scheme ++ "://"
  match env.navigateErr with
  | some v => Except.error ("failed to navigate: " ++ v)
  | none =>
  match env.waitLoginErr with
  | some v => Except.error ("login form not found (timeout): " ++ v)
  | none =>
  match env.fillErr with
  | some v => Except.error ("failed to fill credentials: " ++ v)
  | none =>
  match env.submitErr with
  | some v => Except.error ("failed to submit login: " ++ v)
  | none =>
  if env.codeAfterSubmit ≠ "" then Except.ok env.codeAfterSubmit
  else if env.errorText ≠ "" then Except.error ("authentication failed: " ++ env.errorText)
  else if env.codeAfterSettle ≠ "" then Except.ok env.codeAfterSettle
  else
    match (if goStartsWith env.currentURL redirectPrefix then
             if urlParseOk env.currentURL then
               if queryGetCode env.currentURL ≠ "" then some (queryGetCode env.currentURL)
               else none
             else none
           else none) with
    | some c => Except.ok c
    | none => Except.error "authentication failed - could not retrieve OAuth code"

/-! ### The `/oauth` handler (`main.go` lines 95-152, `part_000` lines 104-128) -/

/-- The decoded request body (`OAuthRequest`). -/
structure OAuthReq where
  brand : String
  country : String
  email : String
  password : String
  deriving DecidableEq

/-- What a `performOAuth` run produces: the progress steps it reports and
its result. -/
structure OAuthRun where
  progressSteps : List String
  result : Except String String

/-- One server-sent event of the streaming mode. -/
inductive SSEEvent where
  /-- a progress event -/
  | progress (msg : String)
  /-- the terminal error event -/
  | errorEv (msg : String)
  /-- the terminal success event -/
  | successEv (code : String)
  deriving DecidableEq

/-- The JSON body written by `sendError`/`sendSuccess`
(`main.go` lines 387-404). -/
structure JSONResp where
  status : String
  message : Option String
  data : Option String
  deriving DecidableEq

/-- A response of the `/oauth` handler: a JSON reply with a status code, or
an event stream. -/
inductive Reply where
  /-- a buffered JSON reply -/
  | json (statusCode : Nat) (body : JSONResp)
  /-- a streamed sequence of events -/
  | sse (events : List SSEEvent)
  deriving DecidableEq

/-- Model of `sendError` (`main.go` lines 387-394). -/
def sendErrorReply (msg : String) (statusCode : Nat) : Reply :=
  Reply.json statusCode ⟨"error", some msg, none⟩

/-- Model of `sendSuccess` (`main.go` lines 396-404): no explicit
`WriteHeader`, so the status is 200. -/
def sendSuccessReply (code : String) : Reply :=
  Reply.json 200 ⟨"success", none, some code⟩

/-- Model of `handleOAuth` (`main.go` lines 95-125) together with
`handleOAuthSSE` (lines 127-152), over an abstract `run` standing for
`performOAuth`.  `decoded` is the result of the JSON decode (`none` for a
decode error); the streaming branch assumes the writer supports flushing,
as every real `http.ResponseWriter` of this server does. -/
def handleOAuthM (method : String) (decoded : Option OAuthReq) (accept : String)
    (run : OAuthReq → OAuthRun) : Reply :=
  if method ≠ "POST" then sendErrorReply "Method not allowed" 405
  else
    match decoded with
    | none => sendErrorReply "Invalid request body" 400
    | some req =>
      if req.brand = "" ∨ req.country = "" ∨ req.email = "" ∨ req.password = "" then
        sendErrorReply "All fields are required" 400
      else if accept = "text/event-stream" then
        match (run req).result with
        | Except.error e =>
          Reply.sse ((run req).progressSteps.map SSEEvent.progress ++ [SSEEvent.errorEv e])
        | Except.ok code =>
          Reply.sse ((run req).progressSteps.map SSEEvent.progress ++ [SSEEvent.successEv code])
      else
        match (run req).result with
        | Except.error e => sendErrorReply e 400
        | Except.ok code => sendSuccessReply code

/-! ## Helper lemmas -/

theorem isPrefixOf_append_self (l t : List Char) : l.isPrefixOf (l ++ t) = true := by
  induction l with
  | nil => simp [List.isPrefixOf]
  | cons c l ih => simp [List.isPrefixOf, ih]

theorem listContains_self_append (m q : List Char) : listContains (m ++ q) m = true := by
  cases m with
  | nil => cases q <;> simp [listContains, List.isPrefixOf]
  | cons c t => simp [listContains, isPrefixOf_append_self]

theorem listContains_append_left (a : List Char) {s sub : List Char}
    (h : listContains s sub = true) : listContains (a ++ s) sub = true := by
  induction a with
  | nil => simpa using h
  | cons c a ih => simp [listContains, ih]

theorem findFormAction_eq_none {l : List Char}
    (h : listContains l "<form".data = false) : findFormAction l = none := by
  induction l with
  | nil => rfl
  | cons c t ih =>
    rw [listContains] at h
    simp only [Bool.or_eq_false_iff] at h
    rw [findFormAction, dropLit]
    simp [h.1, ih h.2]

/-! ## Claim theorems -/

/-- C3: for every brand/country configuration, the authorize URL built by
`performOAuth` is exactly the URL the spec describes: it agrees with the
spec's formula, contains the configured client id, the literal
`response_type=code`, the URL-encoded redirect URI (whose decoded form
begins with `<scheme>://oauth2redirect/`), and the configured locale; being
a function of the configuration, the builder is pure and deterministic. -/
theorem buildAuthorizeURL_spec (bc : BrandConfig) (cc : CountryConfig) (country : String) :
    buildAuthorizeURL bc cc country
        = specAuthorizeURL bc.oauthURL cc.clientID cc.locale bc.scheme country
      ∧ SubstrOf cc.clientID (buildAuthorizeURL bc cc country)
      ∧ SubstrOf "response_type=code" (buildAuthorizeURL bc cc country)
      ∧ SubstrOf ("redirect_uri=" ++ goQueryEscape (redirectURIFor bc.scheme country))
          (buildAuthorizeURL bc cc country)
      ∧ goStartsWith (redirectURIFor bc.scheme country) (bc.scheme ++ "://oauth2redirect/") = true
      ∧ SubstrOf cc.locale (buildAuthorizeURL bc cc country) := by
  refine ⟨rfl, ?_, ?_, ?_, ?_, ?_⟩
  · exact ⟨(bc.oauthURL ++ "/am/oauth2/authorize?client_id=").data,
      ("&response_type=code&redirect_uri=" ++ goQueryEscape (redirectURIFor bc.scheme country) ++
        "&scope=openid%20profile%20email&locale=" ++ cc.locale).data,
      by simp [buildAuthorizeURL, String.data_append]⟩
  · refine ⟨(bc.oauthURL ++ "/am/oauth2/authorize?client_id=" ++ cc.clientID ++ "&").data,
      ("&redirect_uri=" ++ goQueryEscape (redirectURIFor bc.scheme country) ++
        "&scope=openid%20profile%20email&locale=" ++ cc.locale).data, ?_⟩
    have h1 : ("&response_type=code&redirect_uri=" : String)
        = "&" ++ "response_type=code" ++ "&redirect_uri=" := rfl
    show (bc.oauthURL ++ "/am/oauth2/authorize?client_id=" ++ cc.clientID ++
      "&response_type=code&redirect_uri=" ++ goQueryEscape (redirectURIFor bc.scheme country) ++
      "&scope=openid%20profile%20email&locale=" ++ cc.locale).data = _
    rw [h1]
    simp [String.data_append]
  · refine ⟨(bc.oauthURL ++ "/am/oauth2/authorize?client_id=" ++ cc.clientID ++
        "&response_type=code&").data,
      ("&scope=openid%20profile%20email&locale=" ++ cc.locale).data, ?_⟩
    have h2 : ("&response_type=code&redirect_uri=" : String)
        = "&response_type=code&" ++ "redirect_uri=" := rfl
    show (bc.oauthURL ++ "/am/oauth2/authorize?client_id=" ++ cc.clientID ++
      "&response_type=code&redirect_uri=" ++ goQueryEscape (redirectURIFor bc.scheme country) ++
      "&scope=openid%20profile%20email&locale=" ++ cc.locale).data = _
    rw [h2]
    simp [String.data_append]
  · show ((bc.scheme ++ "://oauth2redirect/").data).isPrefixOf
      (redirectURIFor bc.scheme country).data = true
    have h3 : (redirectURIFor bc.scheme country).data
        = (bc.scheme ++ "://oauth2redirect/").data ++ (asciiToLower country).data := by
      simp [redirectURIFor, String.data_append]
    rw [h3]
    exact isPrefixOf_append_self _ _
  · exact ⟨(bc.oauthURL ++ "/am/oauth2/authorize?client_id=" ++ cc.clientID ++
        "&response_type=code&redirect_uri=" ++ goQueryEscape (redirectURIFor bc.scheme country) ++
        "&scope=openid%20profile%20email&locale=").data, [],
      by simp [buildAuthorizeURL, String.data_append]⟩

/-- C4: the client secret is never transmitted in the authorize URL: two
configurations that agree on locale and client id but may differ in the
secret produce character-for-character identical authorize URLs. -/
theorem buildAuthorizeURL_ignores_clientSecret (bc : BrandConfig)
    (cc1 cc2 : CountryConfig) (country : String)
    (hl : cc1.locale = cc2.locale) (hi : cc1.clientID = cc2.clientID) :
    buildAuthorizeURL bc cc1 country = buildAuthorizeURL bc cc2 country := by
  simp [buildAuthorizeURL, hl, hi]

/-- Witness for C4 at a concrete configuration pair differing only in the
client secret. -/
theorem buildAuthorizeURL_ignores_clientSecret_witness :
    buildAuthorizeURL ⟨"https://idp", "realm", "mymap", []⟩ ⟨"en_GB", "cid", "secret1"⟩ "GB"
      = buildAuthorizeURL ⟨"https://idp", "realm", "mymap", []⟩ ⟨"en_GB", "cid", "secret2"⟩ "GB" :=
  buildAuthorizeURL_ignores_clientSecret _ _ _ _ rfl rfl

/-- C6: hidden-field extraction is order-independent for the two listed
attribute orderings: the name-before-value and value-before-name renderings
of the hidden input with name `a` and value `1` extract the same
single-entry map. -/
theorem extractHiddenFields_order_independent :
    extractHiddenFields "<input type=\"hidden\" name=\"a\" value=\"1\">" = [("a", "1")]
  ∧ extractHiddenFields "<input value=\"1\" type=\"hidden\" name=\"a\">" = [("a", "1")]
  ∧ extractHiddenFields "<input type=\"hidden\" name=\"a\" value=\"1\">"
      = extractHiddenFields "<input value=\"1\" type=\"hidden\" name=\"a\">" := by
  refine ⟨?_, ?_, ?_⟩ <;> decide

/-- C7: form-action extraction takes the first `<form ... action="...">`
match; the concrete example with a relative action resolves against the
base URL; every extracted action starting with `/` is resolved against the
base URL; and HTML without a `<form` tag yields the empty string. -/
theorem extractFormAction_spec :
    extractFormAction "<form action=\"/login\">" "https://x" = "https://x/login"
  ∧ extractFormAction "<form action=\"/a\"></form><form action=\"/b\">" "https://x" = "https://x/a"
  ∧ (∀ html baseURL a, findFormAction html.data = some a → goStartsWith a "/" = true →
      extractFormAction html baseURL = baseURL ++ a)
  ∧ (∀ html baseURL, goContains html "<form" = false → extractFormAction html baseURL = "") := by
  refine ⟨by decide, by decide, ?_, ?_⟩
  · intro html baseURL a h1 h2
    rw [extractFormAction, h1]
    simp [h2]
  · intro html baseURL h
    rw [extractFormAction, findFormAction_eq_none h]

/-- Witness for C7: a concrete relative action resolved against a base URL,
and a concrete form-free page yielding the empty string. -/
theorem extractFormAction_spec_witness :
    extractFormAction "<form action=\"/z\">" "https://y" = "https://y/z"
  ∧ extractFormAction "<p>no tag here</p>" "https://y" = "" :=
  ⟨extractFormAction_spec.2.2.1 "<form action=\"/z\">" "https://y" "/z" (by decide) (by decide),
   extractFormAction_spec.2.2.2 "<p>no tag here</p>" "https://y" (by decide)⟩

theorem listenStep_eq_getD (pre acc : String) (e : NetEvent) :
    listenStep pre acc e = (eventCapture pre e).getD acc := by
  cases e with
  | requestWillBeSent u =>
    simp only [listenStep, eventCapture]
    split
    · split
      · split <;> simp
      · simp
    · simp
  | loadingFailed t => rfl

theorem foldl_capture_eq_getLastD (f : NetEvent → Option String) (l : List NetEvent) :
    ∀ acc : String,
      l.foldl (fun a e => (f e).getD a) acc = (l.filterMap f).getLastD acc := by
  induction l with
  | nil => intro acc; rfl
  | cons e t ih =>
    intro acc
    rw [List.foldl_cons, List.filterMap_cons]
    cases h : f e with
    | none =>
      simp only [h, Option.getD_none]
      exact ih acc
    | some c =>
      simp only [h, Option.getD_some, List.getLastD_cons]
      exact ih c

/-- C1 counterexample: a second matching request event carrying a different
code changes the captured value, so the first matching event does not
determine the captured code and later matching events are not ignored. -/
theorem capturedCode_not_first_wins :
    capturedCode "mymap" [NetEvent.requestWillBeSent "mymap://oauth2redirect/gb?code=a"] = "a"
  ∧ capturedCode "mymap"
      [NetEvent.requestWillBeSent "mymap://oauth2redirect/gb?code=a",
       NetEvent.requestWillBeSent "mymap://oauth2redirect/gb?code=b"] = "b"
  ∧ ("b" : String) ≠ "a" := by
  refine ⟨?_, ?_, ?_⟩ <;> decide

/-- C1 (amended): over the observed network events, every request event whose
URL begins with the custom-scheme prefix and carries a non-empty `code`
query parameter overwrites the captured code, so the captured value is the
code of the last such event (or the empty zero value when there is none). -/
theorem capturedCode_last_wins (scheme : String) (events : List NetEvent) :
    capturedCode scheme events
      = (events.filterMap (eventCapture (scheme ++ "://"))).getLastD "" := by
  have hfun : (fun acc e => listenStep (scheme ++ "://") acc e)
      = fun acc e => (eventCapture (scheme ++ "://") e).getD acc := by
    funext acc e
    exact listenStep_eq_getD _ _ _
  rw [capturedCode, hfun, foldl_capture_eq_getLastD]

/-- C2 counterexample: a non-3xx login response with no Location header whose
body contains both a script-redirect pattern and the substring "error" takes
the credential-error branch, not the follow-redirect branch the claim
asserts. -/
theorem postLoginStep_error_before_redirect_cex :
    extractRedirectURL "<script>window.location = 'https://x/next'</script> error"
      = "https://x/next"
  ∧ goContains "<script>window.location = 'https://x/next'</script> error" "error" = true
  ∧ postLoginStep "mymap"
      ⟨200, "", "<script>window.location = 'https://x/next'</script> error"⟩
      = PostLoginAction.credentialError := by
  refine ⟨?_, ?_, ?_⟩ <;> decide

/-- C2 (amended): after the login POST, when the Location header does not
carry the custom scheme, a 3xx response is followed regardless of its body;
a non-3xx response is checked for the substrings "error"/"invalid" BEFORE
any script/meta-refresh redirect is scraped from the body, so such a body
fails with the generic credential error, and only a body containing neither
substring has its script/meta-refresh redirect followed. -/
theorem postLoginStep_order (scheme : String) (r : LoginResp)
    (hloc : ¬(r.location ≠ "" ∧ goStartsWith r.location (scheme ++ "://") = true)) :
    (300 ≤ r.statusCode ∧ r.statusCode < 400 →
      postLoginStep scheme r = PostLoginAction.follow r.location)
  ∧ (¬(300 ≤ r.statusCode ∧ r.statusCode < 400) →
      (goContains r.body "error" = true ∨ goContains r.body "invalid" = true) →
      postLoginStep scheme r = PostLoginAction.credentialError)
  ∧ (¬(300 ≤ r.statusCode ∧ r.statusCode < 400) →
      goContains r.body "error" = false → goContains r.body "invalid" = false →
      extractRedirectURL r.body ≠ "" →
      postLoginStep scheme r = PostLoginAction.follow (extractRedirectURL r.body)) := by
  refine ⟨?_, ?_, ?_⟩
  · intro h3xx
    rw [postLoginStep, if_neg hloc, if_pos h3xx]
  · intro h3xx herr
    rw [postLoginStep, if_neg hloc, if_neg h3xx, if_pos herr]
  · intro h3xx herr1 herr2 hred
    rw [postLoginStep, if_neg hloc, if_neg h3xx, if_neg (by simp [herr1, herr2]),
      if_pos hred]

/-- Witness for C2 (amended) at a concrete error-bearing response. -/
theorem postLoginStep_order_witness :
    postLoginStep "mymap" ⟨200, "", "bad credentials error page"⟩
      = PostLoginAction.credentialError :=
  (postLoginStep_order "mymap" ⟨200, "", "bad credentials error page"⟩ (by decide)).2.1
    (by decide) (Or.inl (by decide))

/-- C5: redirect following is bounded to 10 hops: for any redirect chain in
which no URL begins with the custom scheme, `followRedirects` returns the
terminal "failed to complete redirect chain" failure; the hypotheses
constrain the network on the first ten chain URLs only, so at most ten hops
are consumed. -/
theorem followRedirects_bounded (net : String → Except String HResp) (scheme : String)
    (chain : Nat → String)
    (hnet : ∀ i, i < 10 → ∃ r, net (chain i) = Except.ok r
        ∧ effectiveLocation r = chain (i + 1) ∧ chain (i + 1) ≠ "")
    (hpre : ∀ i, i ≤ 10 → goStartsWith (chain i) (scheme ++ "://") = false) :
    followRedirects net (chain 0) scheme
      = Except.error "failed to complete redirect chain" := by
  have key : ∀ k j, k + j = 10 →
      followRedirectsLoop net scheme k (chain j)
        = Except.error "failed to complete redirect chain" := by
    intro k
    induction k with
    | zero => intro j hj; rfl
    | succ k ih =>
      intro j hj
      obtain ⟨r, hr, hloc, hne⟩ := hnet j (by omega)
      have h1 := hpre j (by omega)
      have h2 := hpre (j + 1) (by omega)
      rw [followRedirectsLoop, if_neg (by simp [h1])]
      simp only [hr]
      rw [hloc]
      rw [if_neg hne, if_neg (by simp [h2])]
      exact ih (j + 1) (by omega)
  exact key 10 0 rfl

/-- Witness for C5: a network that always redirects to the same non-scheme
URL (an 11-or-more-hop chain) makes `followRedirects` fail terminally. -/
theorem followRedirects_bounded_witness :
    followRedirects (fun _ => Except.ok ⟨"https://x/a", ""⟩) "https://x/a" "mymap"
      = Except.error "failed to complete redirect chain" := by
  apply followRedirects_bounded (fun _ => Except.ok ⟨"https://x/a", ""⟩) "mymap"
    (fun _ => "https://x/a")
  · intro i _
    exact ⟨⟨"https://x/a", ""⟩, rfl, by decide, by decide⟩
  · intro i _
    decide

/-- C8: a POST to `/oauth` whose decoded body has any empty field is answered
with 400 and the "All fields are required" error body, and the reply does
not depend on the automation oracle, so no configuration lookup or login
automation runs before the validation failure. -/
theorem handleOAuth_requires_fields (req : OAuthReq) (accept : String)
    (run run2 : OAuthReq → OAuthRun)
    (h : req.brand = "" ∨ req.country = "" ∨ req.email = "" ∨ req.password = "") :
    handleOAuthM "POST" (some req) accept run
        = Reply.json 400 ⟨"error", some "All fields are required", none⟩
      ∧ handleOAuthM "POST" (some req) accept run
        = handleOAuthM "POST" (some req) accept run2 := by
  constructor <;> simp [handleOAuthM, sendErrorReply, h]

/-- Witness for C8: an empty password is rejected with 400 under two
different automation oracles. -/
theorem handleOAuth_requires_fields_witness :
    handleOAuthM "POST" (some ⟨"MyPeugeot", "DE", "user", ""⟩) ""
        (fun _ => ⟨[], Except.ok "c"⟩)
        = Reply.json 400 ⟨"error", some "All fields are required", none⟩
      ∧ handleOAuthM "POST" (some ⟨"MyPeugeot", "DE", "user", ""⟩) ""
          (fun _ => ⟨[], Except.ok "c"⟩)
        = handleOAuthM "POST" (some ⟨"MyPeugeot", "DE", "user", ""⟩) ""
            (fun _ => ⟨[], Except.error "boom"⟩) :=
  handleOAuth_requires_fields _ _ _ _ (Or.inr (Or.inr (Or.inr rfl)))

theorem handleOAuthM_status (method : String) (decoded : Option OAuthReq)
    (run : OAuthReq → OAuthRun) (s : Nat) (b : JSONResp)
    (h : handleOAuthM method decoded "" run = Reply.json s b) :
    (method = "POST" ∧ (s = 200 ∨ s = 400)) ∨ (method ≠ "POST" ∧ s = 405) := by
  by_cases hm : method = "POST"
  · left
    refine ⟨hm, ?_⟩
    subst hm
    simp only [handleOAuthM, sendErrorReply, sendSuccessReply] at h
    rw [if_neg (by simp)] at h
    split at h
    · cases h
      right
      rfl
    · split at h
      · cases h
        right
        rfl
      · rw [if_neg (by decide)] at h
        split at h
        · cases h
          right
          rfl
        · cases h
          left
          rfl
  · right
    refine ⟨hm, ?_⟩
    simp only [handleOAuthM, sendErrorReply] at h
    rw [if_pos hm] at h
    cases h
    rfl

/-- C9: every error returned by the automation (validation, configuration
fetch/parse, or login failure alike) is surfaced by the non-streaming
handler as HTTP 400 with an "error" JSON body carrying the error text
verbatim; every non-streaming JSON reply has status 200, 400 or 405; 405
occurs exactly for non-POST methods, so no automation failure ever yields a
5xx. -/
theorem handleOAuth_error_surfacing (method : String) (decoded : Option OAuthReq)
    (run : OAuthReq → OAuthRun) :
    (∀ req e, decoded = some req →
        ¬(req.brand = "" ∨ req.country = "" ∨ req.email = "" ∨ req.password = "") →
        (run req).result = Except.error e →
        handleOAuthM "POST" decoded "" run = Reply.json 400 ⟨"error", some e, none⟩)
  ∧ (∀ s b, handleOAuthM method decoded "" run = Reply.json s b →
        s = 200 ∨ s = 400 ∨ s = 405)
  ∧ (∀ s b, method ≠ "POST" → handleOAuthM method decoded "" run = Reply.json s b →
        s = 405)
  ∧ (∀ s b, method = "POST" → handleOAuthM method decoded "" run = Reply.json s b →
        s ≠ 405) := by
  refine ⟨?_, ?_, ?_, ?_⟩
  · intro req e hd hne hres
    subst hd
    simp [handleOAuthM, hne, hres, sendErrorReply]
  · intro s b h
    rcases handleOAuthM_status method decoded run s b h with ⟨_, hs | hs⟩ | ⟨_, hs⟩ <;>
      simp [hs]
  · intro s b hm h
    rcases handleOAuthM_status method decoded run s b h with ⟨hp, _⟩ | ⟨_, hs⟩
    · exact absurd hp hm
    · exact hs
  · intro s b hm h
    rcases handleOAuthM_status method decoded run s b h with ⟨_, hs | hs⟩ | ⟨hp, _⟩ <;>
      simp_all


/-- Witness for C9: a concrete automation failure is surfaced verbatim with
status 400. -/
theorem handleOAuth_error_surfacing_witness :
    handleOAuthM "POST" (some ⟨"MyPeugeot", "DE", "user", "pw"⟩) ""
        (fun _ => ⟨[], Except.error "failed to parse configs: x"⟩)
      = Reply.json 400 ⟨"error", some "failed to parse configs: x", none⟩ :=
  (handleOAuth_error_surfacing "POST" (some ⟨"MyPeugeot", "DE", "user", "pw"⟩)
      (fun _ => ⟨[], Except.error "failed to parse configs: x"⟩)).1
    ⟨"MyPeugeot", "DE", "user", "pw"⟩ "failed to parse configs: x" rfl (by decide) rfl

/-- C10: the terminal branch returning "authentication failed: authError" in
`performChromedpOAuth` is unreachable: the only assignment to `authError`
happens on the path that returns the login-form-timeout error immediately,
so the flow is extensionally equal to the variant with that branch removed
and a run with no captured code always ends in the generic
could-not-retrieve failure. -/
theorem performChromedpOAuth_authError_unreachable (scheme : String) (env : ChromeEnv) :
    performChromedpOAuth scheme env = performChromedpOAuthSimplified scheme env := rfl

end Stelloauth
